import Mathlib

/-!
Verification of the mutable-data marshalling layer (native/_mutable.js)
of safe_app_nodejs.

Buffers are modelled as lists of bytes (List Nat).  A JS value that may be
undefined is modelled as an Option.  A native pointer that may be invalid is
modelled as an Option of the data reachable through it; dereferencing an
invalid pointer is modelled as failure (none), so a definition whose result
is independent of that Option provably never dereferences the pointer.
-/

set_option autoImplicit false

namespace SafeMutable

/-- Modelled from the spec: t.XOR_NAME is declared in the missing module
native/_base.js; the spec fixes the XOR name at 32 bytes. -/
def XOR_NAME_size : Nat := 32

/-- Modelled from the spec: t.SYM_KEYBYTES is declared in the missing module
native/_base.js; the spec says only that the symmetric key is a fixed-size
byte array, so the standard secretbox key size of 32 bytes is used.  No claim
depends on the numeric value. -/
def SYM_KEYBYTES_size : Nat := 32

/-- Modelled from the spec: t.SYM_NONCEBYTES is declared in the missing module
native/_base.js; the spec says only that the nonce is a fixed-size byte
array, so the standard secretbox nonce size of 24 bytes is used.  No claim
depends on the numeric value. -/
def SYM_NONCEBYTES_size : Nat := 24

/-- Zero-filled buffer, the embedding of Buffer.alloc(n). -/
def zeros (n : Nat) : List Nat := List.replicate n 0

/-- JS-side MutableDataInfo value object, the argument of makeMDataInfo and
the result of makeMDataInfoObj (fields as read/written by those functions). -/
structure MDataInfoObj where
  name : List Nat
  typeTag : Nat
  has_enc_info : Bool
  enc_key : List Nat
  enc_nonce : List Nat
  has_new_enc_info : Bool
  new_enc_key : List Nat
  new_enc_nonce : List Nat
  deriving DecidableEq, Repr

/-- Wire struct MDataInfo (ref-struct declaration, _mutable.js lines 64-86):
name (XOR_NAME), type_tag (u64), has_enc_info (bool), enc_key (SYM_KEYBYTES),
enc_nonce (SYM_NONCEBYTES), has_new_enc_info, new_enc_key, new_enc_nonce. -/
structure MDataInfoWire where
  name : List Nat
  type_tag : Nat
  has_enc_info : Bool
  enc_key : List Nat
  enc_nonce : List Nat
  has_new_enc_info : Bool
  new_enc_key : List Nat
  new_enc_nonce : List Nat
  deriving DecidableEq, Repr

/-- Embedding of makeMDataInfo (_mutable.js lines 90-116).  The source body
contains no throw statement and no call to makeError, so it is a total
function: key and nonce fields are zero-filled buffers of the declared sizes
when the corresponding has flag is false, and are the object fields,
whatever their length, when the flag is true; name and type_tag (read from
the typeTag property) are copied verbatim. -/
def makeMDataInfo (o : MDataInfoObj) : MDataInfoWire :=
  let enc_key := if o.has_enc_info then o.enc_key else zeros SYM_KEYBYTES_size
  let enc_nonce := if o.has_enc_info then o.enc_nonce else zeros SYM_NONCEBYTES_size
  let new_enc_key := if o.has_new_enc_info then o.new_enc_key else zeros SYM_KEYBYTES_size
  let new_enc_nonce := if o.has_new_enc_info then o.new_enc_nonce else zeros SYM_NONCEBYTES_size
  { name := o.name
    type_tag := o.typeTag
    has_enc_info := o.has_enc_info
    enc_key := enc_key
    enc_nonce := enc_nonce
    has_new_enc_info := o.has_new_enc_info
    new_enc_key := new_enc_key
    new_enc_nonce := new_enc_nonce }

/-- Embedding of makeMDataInfoObj (_mutable.js lines 220-248).  For a
well-typed wire struct the name conversion cannot throw (the name field is a
32-byte array) and type_tag is an integer Number, so the function is total.
The source at lines 234-235 computes the result fields new_enc_key and
new_enc_nonce from mDataInfo.enc_key and mDataInfo.enc_nonce (not from
mDataInfo.new_enc_key / mDataInfo.new_enc_nonce), and this embedding
reproduces that behaviour exactly. -/
def makeMDataInfoObj (w : MDataInfoWire) : MDataInfoObj :=
  { name := w.name
    typeTag := w.type_tag
    has_enc_info := w.has_enc_info
    enc_key := w.enc_key
    enc_nonce := w.enc_nonce
    has_new_enc_info := w.has_new_enc_info
    new_enc_key := w.enc_key
    new_enc_nonce := w.enc_nonce }

/-- JS-side permission set object: the five capability booleans, as produced
by readPermsSet. -/
structure PermsObj where
  Read : Bool
  Insert : Bool
  Update : Bool
  Delete : Bool
  ManagePermissions : Bool
  deriving DecidableEq, Repr

/-- Wire struct PermissionSet (t.PermissionSet, declared in the missing
module native/_base.js): five boolean capability fields. -/
structure PermissionSetWire where
  Read : Bool
  Insert : Bool
  Update : Bool
  Delete : Bool
  ManagePermissions : Bool
  deriving DecidableEq, Repr

/-- Modelled from the spec: h.makePermissionSet lives in the missing module
native/_base.js.  Per the spec it maps the five boolean capabilities into the
fixed-size wire struct field-for-field, with unspecified capabilities
reported as false rather than causing an error; here the caller object is
taken with all five capabilities specified. -/
def makePermissionSet (p : PermsObj) : PermissionSetWire :=
  { Read := p.Read
    Insert := p.Insert
    Update := p.Update
    Delete := p.Delete
    ManagePermissions := p.ManagePermissions }

/-- Embedding of readPermsSet (_mutable.js lines 254-262): builds the
five-field permission set object from the wire struct. -/
def readPermsSet (permsSet : PermissionSetWire) : PermsObj :=
  { Read := permsSet.Read
    Insert := permsSet.Insert
    Update := permsSet.Update
    Delete := permsSet.Delete
    ManagePermissions := permsSet.ManagePermissions }

/-- Embedding of readPermissionSetPtr (_mutable.js lines 264-266).  The
source body is a single const binding of readPermsSet applied to the
dereferenced pointer, with no return statement, so the JS function returns
undefined; the argument here is the wire struct behind permSetPtr[0]. -/
def readPermissionSetPtr (permSetPtr : PermissionSetWire) : Option PermsObj :=
  let _permSet := readPermsSet permSetPtr
  none

/-- A JS number argument as tested by Number.isInteger: either an integer
value or some non-integer number. -/
inductive JSNum where
  | int (n : Int)
  | nonInt
  deriving DecidableEq, Repr

/-- A byte-sequence argument as tested by Buffer.isBuffer: either already a
Buffer, or another value (string, array) that new Buffer converts to the
given bytes. -/
inductive BufInput where
  | buffer (bs : List Nat)
  | other (bs : List Nat)
  deriving DecidableEq, Repr

/-- Bytes carried by a BufInput, whichever branch the source takes. -/
def BufInput.bytes : BufInput → List Nat
  | .buffer bs => bs
  | .other bs => bs

/-- Modelled from the spec: the typed validation errors produced by makeError
with codes from the missing modules native/_error.js and error_const.js; the
spec names the conditions (non-integer type tag, wrong XOR-name length,
wrong key length, wrong nonce length) and says the message carries the
expected size. -/
inductive MDError where
  | typeTagNaN
  | xorName (expected : Nat)
  | invalidSecKey (expected : Nat)
  | nonce (expected : Nat)
  deriving DecidableEq, Repr

/-- Length check shared by the three inputs of translatePrivMDInput
(_mutable.js lines 138-163): in the non-Buffer branch the value is first
converted with new Buffer (same bytes), and in both branches the byte length
is compared against the declared size, throwing the given makeError on
mismatch and otherwise yielding the bytes (as a pointer for the converted
branch, as the buffer itself otherwise, both carrying the same bytes). -/
def checkBufLen (b : BufInput) (size : Nat) (e : MDError) : Except MDError (List Nat) :=
  match b with
  | .other bs => if bs.length ≠ size then .error e else .ok bs
  | .buffer bs => if bs.length ≠ size then .error e else .ok bs

/-- Embedding of translatePrivMDInput (_mutable.js lines 131-166).  The tag
is checked with Number.isInteger first; then xorname, secKey and nonce are
length-checked in that order against their declared sizes and the four
translated arguments are returned.  A thrown makeError is embedded as
Except.error, which short-circuits the rest of the body as a JS throw
does. -/
def translatePrivMDInput (xorname : BufInput) (tag : JSNum) (secKey : BufInput)
    (nonce : BufInput) : Except MDError (List Nat × JSNum × List Nat × List Nat) :=
  match tag with
  | .nonInt => .error .typeTagNaN
  | .int _ =>
    match checkBufLen xorname XOR_NAME_size (.xorName XOR_NAME_size) with
    | .error e => .error e
    | .ok name =>
      match checkBufLen secKey SYM_KEYBYTES_size (.invalidSecKey SYM_KEYBYTES_size) with
      | .error e => .error e
      | .ok sk =>
        match checkBufLen nonce SYM_NONCEBYTES_size (.nonce SYM_NONCEBYTES_size) with
        | .error e => .error e
        | .ok n => .ok (name, tag, sk, n)

/-- An entry of the argument list handed to the native call by an argument
transform: either a leading value passed through unchanged (app pointer,
handle, struct pointer or kept-as-is last entry), or a byte buffer placed by
the transform, or a length pushed by the transform. -/
inductive NArg where
  | raw (v : Nat)
  | buf (bs : List Nat)
  | len (n : Nat)
  deriving DecidableEq, Repr

/-- Embedding of strToBuffer (_mutable.js lines 183-191).  appPtr and mdata
are opaque passed-through values; each remaining item is converted to a
Buffer (Buffer.isBuffer item, item.buffer, or new Buffer(item) all yield the
bytes the item carries, which is how varArgs is typed here) and pushed
followed by that buffer's length. -/
def strToBuffer (appPtr mdata : Nat) (varArgs : List (List Nat)) : List NArg :=
  NArg.raw appPtr :: NArg.raw mdata ::
    varArgs.flatMap (fun bs => [NArg.buf bs, NArg.len bs.length])

/-- Embedding of strToBufferButLastEntry (_mutable.js lines 194-204): like
strToBuffer for all items but the last of varArgs, which is appended as is;
the source reads varArgs as one variadic list whose last element is lastArg,
split in the signature here. -/
def strToBufferButLastEntry (appPtr mdata : Nat) (varArgs : List (List Nat))
    (lastArg : Nat) : List NArg :=
  NArg.raw appPtr :: NArg.raw mdata ::
    (varArgs.flatMap (fun bs => [NArg.buf bs, NArg.len bs.length]) ++ [NArg.raw lastArg])

/-- Embedding of bufferLastEntry (_mutable.js lines 125-129): the variadic
argument list is all of init followed by one string-or-buffer argument; the
last argument is converted with new Buffer to the bytes it carries and the
call returns init unchanged followed by that buffer and its length. -/
def bufferLastEntry (init : List Nat) (lastBytes : List Nat) : List NArg :=
  init.map NArg.raw ++ [NArg.buf lastBytes, NArg.len lastBytes.length]

/-- Checks that every buffer in a native argument list is immediately
followed by its own exact byte length. -/
def bufsFollowedByLen : List NArg → Bool
  | [] => true
  | NArg.buf bs :: rest =>
      match rest with
      | NArg.len n :: rest2 => n == bs.length && bufsFollowedByLen rest2
      | _ => false
  | _ :: rest => bufsFollowedByLen rest

/-- A decoded byte buffer together with its provenance: engineOwned is true
when the buffer is a ref.reinterpret view into engine-managed memory, false
when it is caller-owned (a fresh new Buffer copy or new Buffer(0)). -/
structure Buf where
  bytes : List Nat
  engineOwned : Bool
  deriving DecidableEq, Repr

/-- Wire struct MDataKey (_mutable.js lines 32-37): val_ptr and val_len.
The field val is the val_len bytes readable through val_ptr, or none when
dereferencing val_ptr would fault. -/
structure MDataKeyRec where
  val : Option (List Nat)
  deriving DecidableEq, Repr

/-- Wire struct MDataValue (_mutable.js lines 40-47): content_ptr,
content_len and entry_version.  contentMem is the content_len bytes readable
through content_ptr, or none when dereferencing content_ptr would fault. -/
structure MDataValueRec where
  content_len : Nat
  contentMem : Option (List Nat)
  entry_version : Nat
  deriving DecidableEq, Repr

/-- Wire struct MDataEntry (_mutable.js lines 50-53): a key struct and a
value struct. -/
structure MDataEntryRec where
  key : MDataKeyRec
  value : MDataValueRec
  deriving DecidableEq, Repr

/-- Wire struct UserPermissionSet (_mutable.js lines 56-61): a sign-key
handle and an inline permission-set struct (no pointers). -/
structure UserPermissionSetRec where
  user_h : Nat
  perm_set : PermissionSetWire
  deriving DecidableEq, Repr

/-- Decoded entry value: buf paired with the transported version, the value
shape pushed by the mdata_list_entries and mdata_list_values transforms. -/
structure ValueObj where
  buf : Buf
  version : Nat
  deriving DecidableEq, Repr

/-- Decoded entry object pushed by the mdata_list_entries transform. -/
structure EntryObj where
  key : Buf
  value : ValueObj
  deriving DecidableEq, Repr

/-- Decoded user-permission pair pushed by the mdata_list_permission_sets
transform. -/
structure UserPermObj where
  signKey : Nat
  permSet : PermsObj
  deriving DecidableEq, Repr

/-- Embedding of ref.reinterpret(ptr, size * len) followed by wrapping in the
fixed-stride ArrayType: yields the first len records behind the pointer, and
faults (none) when the pointer is invalid or fewer than len records are
readable. -/
def readArray {α : Type} (mem : Option (List α)) (len : Nat) : Option (List α) :=
  match mem with
  | none => none
  | some recs => if len ≤ recs.length then some (recs.take len) else none

/-- Per-record decoding loop of the array transforms: each record is decoded
in order and a faulting dereference anywhere aborts the whole decode. -/
def decodeAll {α β : Type} (f : α → Option β) : List α → Option (List β)
  | [] => some []
  | r :: rs =>
      match f r, decodeAll f rs with
      | some b, some bs => some (b :: bs)
      | _, _ => none

/-- Key decoding step of the mdata_list_keys transform (_mutable.js lines
388-391): keyStr is ref.reinterpret(val_ptr, val_len, 0), a view into engine
memory, pushed without copying. -/
def decodeKeyView (k : MDataKeyRec) : Option Buf :=
  k.val.map (fun bs => Buf.mk bs true)

/-- Value decoding step of the mdata_list_values transform (_mutable.js
lines 403-406): valueStr is ref.reinterpret(content_ptr, content_len, 0), a
view into engine memory, pushed without copying together with
entry_version. -/
def decodeValueView (v : MDataValueRec) : Option ValueObj :=
  v.contentMem.map (fun bs => { buf := Buf.mk bs true, version := v.entry_version })

/-- Entry decoding step of the mdata_list_entries transform (_mutable.js
lines 366-376): keyStr is ref.reinterpret(val_ptr, val_len), a view; the
value buffer is new Buffer(0) when content_len is 0 (content_ptr untouched)
and otherwise new Buffer(ref.reinterpret(content_ptr, content_len)), a
caller-owned copy. -/
def decodeEntry (e : MDataEntryRec) : Option EntryObj :=
  match e.key.val with
  | none => none
  | some ks =>
      let keyStr := Buf.mk ks true
      if e.value.content_len == 0 then
        some { key := keyStr
               value := { buf := Buf.mk [] false, version := e.value.entry_version } }
      else
        match e.value.contentMem with
        | none => none
        | some cs =>
            some { key := keyStr
                   value := { buf := Buf.mk cs false, version := e.value.entry_version } }

/-- User-permission decoding step of the mdata_list_permission_sets
transform (_mutable.js lines 343-346): reads the handle and the inline
permission struct, no pointer dereference. -/
def decodeUserPerm (u : UserPermissionSetRec) : UserPermObj :=
  { signKey := u.user_h, permSet := readPermsSet u.perm_set }

/-- Output transform of mdata_list_entries (_mutable.js lines 359-380): an
empty list when len is 0, otherwise the pointer is reinterpreted as len
fixed-stride MDataEntry records and each is decoded in order. -/
def mdataListEntriesTransform (mem : Option (List MDataEntryRec)) (len : Nat) :
    Option (List EntryObj) :=
  if len > 0 then
    match readArray mem len with
    | none => none
    | some arr => decodeAll decodeEntry arr
  else some []

/-- Output transform of mdata_list_keys (_mutable.js lines 381-395): an
empty list when len is 0, otherwise len fixed-stride MDataKey records each
decoded to a reinterpret view. -/
def mdataListKeysTransform (mem : Option (List MDataKeyRec)) (len : Nat) :
    Option (List Buf) :=
  if len > 0 then
    match readArray mem len with
    | none => none
    | some arr => decodeAll decodeKeyView arr
  else some []

/-- Output transform of mdata_list_values (_mutable.js lines 396-410): an
empty list when len is 0, otherwise len fixed-stride MDataValue records each
decoded to a reinterpret view paired with its version. -/
def mdataListValuesTransform (mem : Option (List MDataValueRec)) (len : Nat) :
    Option (List ValueObj) :=
  if len > 0 then
    match readArray mem len with
    | none => none
    | some arr => decodeAll decodeValueView arr
  else some []

/-- Output transform of mdata_list_permission_sets (_mutable.js lines
336-350): an empty list when len is 0, otherwise len fixed-stride
UserPermissionSet records each decoded without any inner dereference. -/
def mdataListPermissionSetsTransform (mem : Option (List UserPermissionSetRec))
    (len : Nat) : Option (List UserPermObj) :=
  if len > 0 then
    match readArray mem len with
    | none => none
    | some arr => some (arr.map decodeUserPerm)
  else some []

/-!
Theorems.
-/

/-- Claim C1.  The claim states that makeMDataInfoObj applied to
makeMDataInfo(x) yields an object equal to x for every combination of the
two flags, including the new_enc_key and new_enc_nonce fields.  The code
violates this: the decoder computes new_enc_key and new_enc_nonce from the
wire fields enc_key and enc_nonce (a slip at _mutable.js lines 234-235, the
new_enc_key and new_enc_nonce wire fields are never read), so the round trip
fails at the concrete object below, which has has_new_enc_info true and a
new_enc_key different from the old encryption info.  The first two conjuncts
exhibit the slip universally; the last three evaluate the code at the
failing input. -/
theorem c1_roundtrip_fails_on_new_enc_info :
    (∀ w : MDataInfoWire, (makeMDataInfoObj w).new_enc_key = w.enc_key) ∧
    (∀ w : MDataInfoWire, (makeMDataInfoObj w).new_enc_nonce = w.enc_nonce) ∧
    (makeMDataInfoObj (makeMDataInfo
        { name := zeros 32, typeTag := 15000,
          has_enc_info := false, enc_key := zeros 32, enc_nonce := zeros 24,
          has_new_enc_info := true, new_enc_key := 1 :: zeros 31,
          new_enc_nonce := zeros 24 })).new_enc_key = zeros 32 ∧
    (1 :: zeros 31 : List Nat) ≠ zeros 32 ∧
    makeMDataInfoObj (makeMDataInfo
        { name := zeros 32, typeTag := 15000,
          has_enc_info := false, enc_key := zeros 32, enc_nonce := zeros 24,
          has_new_enc_info := true, new_enc_key := 1 :: zeros 31,
          new_enc_nonce := zeros 24 }) ≠
      { name := zeros 32, typeTag := 15000,
        has_enc_info := false, enc_key := zeros 32, enc_nonce := zeros 24,
        has_new_enc_info := true, new_enc_key := 1 :: zeros 31,
        new_enc_nonce := zeros 24 } :=
  ⟨fun _ => rfl, fun _ => rfl, by decide, by decide, by decide⟩

/-- Claim C2.  The permission-set decode of an encode is the identity on all
32 boolean combinations (first conjunct, universally over the five-boolean
object), but the output transform readPermissionSetPtr used by
mdata_permissions_get and mdata_list_user_permissions does not return the
decoded object: its body has no return statement (_mutable.js lines
264-266), so it returns undefined for every input. -/
theorem c2_perms_roundtrip_but_transform_returns_undefined :
    (∀ p : PermsObj, readPermsSet (makePermissionSet p) = p) ∧
    (∀ w : PermissionSetWire, readPermissionSetPtr w = none) ∧
    readPermissionSetPtr (makePermissionSet
      { Read := true, Insert := true, Update := true, Delete := true,
        ManagePermissions := true }) = none :=
  ⟨fun _ => rfl, fun _ => rfl, rfl⟩

/-- Claim C5.  makeMDataInfo copies name and type_tag (from the typeTag
property) verbatim, and substitutes zero-filled buffers of the declared
fixed sizes for the key and nonce fields whose has flag is false. -/
theorem c5_encode_zero_fills_absent_enc_info (o : MDataInfoObj) :
    (makeMDataInfo o).name = o.name ∧
    (makeMDataInfo o).type_tag = o.typeTag ∧
    (o.has_enc_info = false →
      (makeMDataInfo o).enc_key = zeros SYM_KEYBYTES_size ∧
      (makeMDataInfo o).enc_nonce = zeros SYM_NONCEBYTES_size) ∧
    (o.has_new_enc_info = false →
      (makeMDataInfo o).new_enc_key = zeros SYM_KEYBYTES_size ∧
      (makeMDataInfo o).new_enc_nonce = zeros SYM_NONCEBYTES_size) := by
  refine ⟨rfl, rfl, ?_, ?_⟩ <;> intro h <;> simp [makeMDataInfo, h]

/-- Witness for c5_encode_zero_fills_absent_enc_info at a concrete object
with both flags false. -/
theorem c5_witness :
    (false = false) ∧
    ((makeMDataInfo
        { name := zeros 32, typeTag := 15000,
          has_enc_info := false, enc_key := [9, 9], enc_nonce := [8],
          has_new_enc_info := false, new_enc_key := [7], new_enc_nonce := [] }).enc_key
      = zeros SYM_KEYBYTES_size ∧
     (makeMDataInfo
        { name := zeros 32, typeTag := 15000,
          has_enc_info := false, enc_key := [9, 9], enc_nonce := [8],
          has_new_enc_info := false, new_enc_key := [7], new_enc_nonce := [] }).enc_nonce
      = zeros SYM_NONCEBYTES_size) :=
  ⟨rfl, (c5_encode_zero_fills_absent_enc_info
    { name := zeros 32, typeTag := 15000,
      has_enc_info := false, enc_key := [9, 9], enc_nonce := [8],
      has_new_enc_info := false, new_enc_key := [7], new_enc_nonce := [] }).2.2.1 rfl⟩

/-- Claim C6 as stated is false: makeMDataInfo (_mutable.js lines 90-116)
contains no length check and no call to makeError, so encoding an object
whose has_enc_info is true with a 5-byte enc_key (the declared size is 32)
does not fail with a typed validation error — it returns a wire struct
carrying the 5-byte buffer through unchanged. -/
theorem c6_counterexample :
    ([1, 2, 3, 4, 5] : List Nat).length ≠ SYM_KEYBYTES_size ∧
    makeMDataInfo
      { name := zeros 32, typeTag := 0,
        has_enc_info := true, enc_key := [1, 2, 3, 4, 5], enc_nonce := zeros 24,
        has_new_enc_info := false, new_enc_key := [], new_enc_nonce := [] } =
    { name := zeros 32, type_tag := 0,
      has_enc_info := true, enc_key := [1, 2, 3, 4, 5], enc_nonce := zeros 24,
      has_new_enc_info := false, new_enc_key := zeros 32, new_enc_nonce := zeros 24 } :=
  ⟨by decide, by decide⟩

/-- Claim C6 amended: makeMDataInfo performs no size validation and raises
no typed validation error; when has_enc_info is true the provided enc_key
and enc_nonce are copied into the wire struct unchanged whatever their
length, and likewise for new_enc_key and new_enc_nonce when
has_new_enc_info is true (makeMDataInfo is a total function on objects). -/
theorem c6_amended_no_validation (o : MDataInfoObj) :
    (o.has_enc_info = true →
      (makeMDataInfo o).enc_key = o.enc_key ∧
      (makeMDataInfo o).enc_nonce = o.enc_nonce) ∧
    (o.has_new_enc_info = true →
      (makeMDataInfo o).new_enc_key = o.new_enc_key ∧
      (makeMDataInfo o).new_enc_nonce = o.new_enc_nonce) := by
  constructor <;> intro h <;> simp [makeMDataInfo, h]

/-- Witness for c6_amended_no_validation at a concrete object with a
wrong-sized key and both flags true. -/
theorem c6_amended_witness :
    (true = true) ∧
    (makeMDataInfo
      { name := zeros 32, typeTag := 0,
        has_enc_info := true, enc_key := [1, 2, 3], enc_nonce := [4],
        has_new_enc_info := false, new_enc_key := [], new_enc_nonce := [] }).enc_key
      = [1, 2, 3] ∧
    (makeMDataInfo
      { name := zeros 32, typeTag := 0,
        has_enc_info := true, enc_key := [1, 2, 3], enc_nonce := [4],
        has_new_enc_info := false, new_enc_key := [], new_enc_nonce := [] }).enc_nonce
      = [4] :=
  ⟨rfl,
   ((c6_amended_no_validation
      { name := zeros 32, typeTag := 0,
        has_enc_info := true, enc_key := [1, 2, 3], enc_nonce := [4],
        has_new_enc_info := false, new_enc_key := [], new_enc_nonce := [] }).1 rfl).1,
   ((c6_amended_no_validation
      { name := zeros 32, typeTag := 0,
        has_enc_info := true, enc_key := [1, 2, 3], enc_nonce := [4],
        has_new_enc_info := false, new_enc_key := [], new_enc_nonce := [] }).1 rfl).2⟩

/-- Claim C8.  The decoder takes both presence flags directly from the
transported flag fields: whatever the key and nonce bytes of the wire
struct, the decoded has_enc_info and has_new_enc_info equal the transported
flags, so an all-zero key with the flag false decodes to flag false and the
same bytes with the flag true decode to flag true. -/
theorem c8_flags_transported_not_inferred :
    ∀ (w : MDataInfoWire) (b : Bool),
      (makeMDataInfoObj { w with has_enc_info := b }).has_enc_info = b ∧
      (makeMDataInfoObj { w with has_new_enc_info := b }).has_new_enc_info = b :=
  fun _ _ => ⟨rfl, rfl⟩

/-- The shared length check succeeds exactly on the declared size, yielding
the input bytes, and otherwise produces the given error. -/
theorem checkBufLen_eq (b : BufInput) (size : Nat) (e : MDError) :
    checkBufLen b size e =
      if b.bytes.length = size then Except.ok b.bytes else Except.error e := by
  cases b <;> rename_i bs <;> by_cases h : bs.length = size <;>
    simp [checkBufLen, BufInput.bytes, h]

/-- Claim C3.  translatePrivMDInput returns a typed validation error (and
hence, being a pure argument transform, issues nothing to the native call)
exactly when the tag is not an integer or one of the three buffers has the
wrong declared length, and on well-sized input returns the translated
argument list name, tag, sk, n with the given bytes and tag. -/
theorem c3_translatePrivMDInput_validates (xorname : BufInput) (tag : JSNum)
    (secKey : BufInput) (nonce : BufInput) :
    ((translatePrivMDInput xorname tag secKey nonce).isOk = false ↔
      (tag = JSNum.nonInt ∨ xorname.bytes.length ≠ XOR_NAME_size ∨
       secKey.bytes.length ≠ SYM_KEYBYTES_size ∨
       nonce.bytes.length ≠ SYM_NONCEBYTES_size)) ∧
    (tag ≠ JSNum.nonInt → xorname.bytes.length = XOR_NAME_size →
     secKey.bytes.length = SYM_KEYBYTES_size →
     nonce.bytes.length = SYM_NONCEBYTES_size →
     translatePrivMDInput xorname tag secKey nonce =
       Except.ok (xorname.bytes, tag, secKey.bytes, nonce.bytes)) := by
  constructor
  · cases tag with
    | nonInt => simp [translatePrivMDInput, Except.isOk, Except.toBool]
    | int m =>
      simp only [translatePrivMDInput, checkBufLen_eq]
      split_ifs with h1 h2 h3 <;> simp_all [Except.isOk, Except.toBool]
  · intro ht h1 h2 h3
    cases tag with
    | nonInt => exact absurd rfl ht
    | int m => simp [translatePrivMDInput, checkBufLen_eq, h1, h2, h3]

/-- Witness for c3_translatePrivMDInput_validates: a 32-byte name, 32-byte
key and 24-byte nonce with integer tag 15000 are translated without
error. -/
theorem c3_witness :
    (JSNum.int 15000 ≠ JSNum.nonInt) ∧
    (BufInput.buffer (zeros 32)).bytes.length = XOR_NAME_size ∧
    (BufInput.other (zeros 32)).bytes.length = SYM_KEYBYTES_size ∧
    (BufInput.buffer (zeros 24)).bytes.length = SYM_NONCEBYTES_size ∧
    translatePrivMDInput (BufInput.buffer (zeros 32)) (JSNum.int 15000)
        (BufInput.other (zeros 32)) (BufInput.buffer (zeros 24)) =
      Except.ok (zeros 32, JSNum.int 15000, zeros 32, zeros 24) :=
  ⟨by decide, by decide, by decide, by decide,
   (c3_translatePrivMDInput_validates (BufInput.buffer (zeros 32)) (JSNum.int 15000)
      (BufInput.other (zeros 32)) (BufInput.buffer (zeros 24))).2
     (by decide) (by decide) (by decide) (by decide)⟩

/-- Buffer-length pairs contributed by the conversion loop keep the
well-pairedness of whatever follows them. -/
theorem bufsFollowedByLen_pairs (items : List (List Nat)) (rest : List NArg) :
    bufsFollowedByLen
      (items.flatMap (fun bs => [NArg.buf bs, NArg.len bs.length]) ++ rest) =
    bufsFollowedByLen rest := by
  induction items with
  | nil => rfl
  | cons bs items ih =>
      rw [List.flatMap_cons, List.append_assoc]
      show bufsFollowedByLen (NArg.buf bs :: NArg.len bs.length ::
        (items.flatMap (fun bs => [NArg.buf bs, NArg.len bs.length]) ++ rest)) = _
      simp [bufsFollowedByLen, ih]

/-- Passed-through leading arguments keep the well-pairedness of whatever
follows them. -/
theorem bufsFollowedByLen_map_raw (init : List Nat) (rest : List NArg) :
    bufsFollowedByLen (init.map NArg.raw ++ rest) = bufsFollowedByLen rest := by
  induction init with
  | nil => rfl
  | cons v init ih => simp [bufsFollowedByLen, ih]

/-- Claim C9.  In every argument list produced by strToBuffer,
strToBufferButLastEntry and bufferLastEntry, each buffer placed by the
transform is immediately followed by its own exact byte length, and the
non-buffer leading arguments (app pointer, handle, or the untouched initial
entries) are passed through unchanged in their original order; for
strToBufferButLastEntry the kept last entry ends the list unchanged. -/
theorem c9_buffers_followed_by_exact_lengths :
    (∀ (a m : Nat) (items : List (List Nat)),
      bufsFollowedByLen (strToBuffer a m items) = true ∧
      (strToBuffer a m items).take 2 = [NArg.raw a, NArg.raw m]) ∧
    (∀ (a m : Nat) (items : List (List Nat)) (lastArg : Nat),
      bufsFollowedByLen (strToBufferButLastEntry a m items lastArg) = true ∧
      (strToBufferButLastEntry a m items lastArg).take 2 = [NArg.raw a, NArg.raw m] ∧
      (strToBufferButLastEntry a m items lastArg).getLast? = some (NArg.raw lastArg)) ∧
    (∀ (init : List Nat) (lastBytes : List Nat),
      bufsFollowedByLen (bufferLastEntry init lastBytes) = true ∧
      (bufferLastEntry init lastBytes).take init.length = init.map NArg.raw) := by
  refine ⟨fun a m items => ⟨?_, rfl⟩, fun a m items lastArg => ⟨?_, rfl, ?_⟩,
    fun init lastBytes => ⟨?_, ?_⟩⟩
  · show bufsFollowedByLen (items.flatMap _) = true
    have h := bufsFollowedByLen_pairs items []
    simpa using h
  · show bufsFollowedByLen (items.flatMap _ ++ [NArg.raw lastArg]) = true
    rw [bufsFollowedByLen_pairs]
    rfl
  · show (NArg.raw a :: NArg.raw m :: (items.flatMap _ ++ [NArg.raw lastArg])).getLast? =
      some (NArg.raw lastArg)
    rw [show NArg.raw a :: NArg.raw m :: (items.flatMap
          (fun bs => [NArg.buf bs, NArg.len bs.length]) ++ [NArg.raw lastArg]) =
        (NArg.raw a :: NArg.raw m :: items.flatMap
          (fun bs => [NArg.buf bs, NArg.len bs.length])) ++ [NArg.raw lastArg] by simp]
    exact List.getLast?_concat _
  · rw [bufferLastEntry, bufsFollowedByLen_map_raw]
    simp [bufsFollowedByLen]
  · rw [bufferLastEntry, ← List.length_map init NArg.raw]
    exact List.take_left _ _

/-- The per-record decoding loop preserves the record count. -/
theorem decodeAll_length {α β : Type} (f : α → Option β) (l : List α)
    (out : List β) (h : decodeAll f l = some out) : out.length = l.length := by
  induction l generalizing out with
  | nil =>
      simp only [decodeAll, Option.some.injEq] at h
      subst h; rfl
  | cons r rs ih =>
      simp only [decodeAll] at h
      cases hfr : f r with
      | none => rw [hfr] at h; exact Option.noConfusion h
      | some b =>
          rw [hfr] at h
          cases hrec : decodeAll f rs with
          | none => rw [hrec] at h; exact Option.noConfusion h
          | some bs =>
              rw [hrec] at h
              simp only [Option.some.injEq] at h
              subst h
              simp [ih bs hrec]

/-- The per-record decoding loop succeeds when every record decodes. -/
theorem decodeAll_total {α β : Type} (f : α → Option β) (l : List α)
    (h : ∀ a ∈ l, (f a).isSome) : ∃ out, decodeAll f l = some out := by
  induction l with
  | nil => exact ⟨[], rfl⟩
  | cons r rs ih =>
      obtain ⟨b, hb⟩ := Option.isSome_iff_exists.mp (h r (List.mem_cons_self r rs))
      obtain ⟨out, hout⟩ := ih (fun a ha => h a (List.mem_cons_of_mem r ha))
      exact ⟨b :: out, by simp [decodeAll, hb, hout]⟩

/-- Every element of a successful per-record decode is the decode of some
record. -/
theorem decodeAll_mem {α β : Type} (f : α → Option β) (l : List α)
    (out : List β) (h : decodeAll f l = some out) :
    ∀ b ∈ out, ∃ a, f a = some b := by
  induction l generalizing out with
  | nil =>
      simp only [decodeAll, Option.some.injEq] at h
      subst h
      intro b hb
      exact absurd hb (List.not_mem_nil b)
  | cons r rs ih =>
      simp only [decodeAll] at h
      cases hfr : f r with
      | none => rw [hfr] at h; exact Option.noConfusion h
      | some b0 =>
          rw [hfr] at h
          cases hrec : decodeAll f rs with
          | none => rw [hrec] at h; exact Option.noConfusion h
          | some bs =>
              rw [hrec] at h
              simp only [Option.some.injEq] at h
              subst h
              intro b hb
              rcases List.mem_cons.mp hb with hb0 | hbs
              · exact ⟨r, by rw [hfr, hb0]⟩
              · exact ih bs hrec b hbs

/-- Reinterpreting exactly the length of the available record list yields
the whole list. -/
theorem readArray_self {α : Type} (recs : List α) :
    readArray (some recs) recs.length = some recs := by
  simp [readArray]

/-- Claim C4.  Each array-decoding output transform returns an empty list
when the length argument is 0, for every pointer including an invalid one
(so the pointer is never dereferenced or reinterpreted), and for a positive
length n with n records behind the pointer, all of whose per-record
dereferences succeed, it builds exactly n decoded objects from the
fixed-stride record array. -/
theorem c4_array_transforms_length_discipline :
    (∀ mem, mdataListEntriesTransform mem 0 = some []) ∧
    (∀ mem, mdataListKeysTransform mem 0 = some []) ∧
    (∀ mem, mdataListValuesTransform mem 0 = some []) ∧
    (∀ mem, mdataListPermissionSetsTransform mem 0 = some []) ∧
    (∀ recs : List MDataEntryRec, 0 < recs.length →
      (∀ e ∈ recs, (decodeEntry e).isSome) →
      ∃ out, mdataListEntriesTransform (some recs) recs.length = some out ∧
        out.length = recs.length) ∧
    (∀ recs : List MDataKeyRec, 0 < recs.length →
      (∀ k ∈ recs, (decodeKeyView k).isSome) →
      ∃ out, mdataListKeysTransform (some recs) recs.length = some out ∧
        out.length = recs.length) ∧
    (∀ recs : List MDataValueRec, 0 < recs.length →
      (∀ v ∈ recs, (decodeValueView v).isSome) →
      ∃ out, mdataListValuesTransform (some recs) recs.length = some out ∧
        out.length = recs.length) ∧
    (∀ recs : List UserPermissionSetRec, 0 < recs.length →
      mdataListPermissionSetsTransform (some recs) recs.length =
        some (recs.map decodeUserPerm) ∧
      (recs.map decodeUserPerm).length = recs.length) := by
  refine ⟨fun mem => rfl, fun mem => rfl, fun mem => rfl, fun mem => rfl,
    ?_, ?_, ?_, ?_⟩
  · intro recs hpos hall
    obtain ⟨out, hout⟩ := decodeAll_total decodeEntry recs hall
    refine ⟨out, ?_, decodeAll_length _ _ _ hout⟩
    simp [mdataListEntriesTransform, hpos, readArray_self, hout]
  · intro recs hpos hall
    obtain ⟨out, hout⟩ := decodeAll_total decodeKeyView recs hall
    refine ⟨out, ?_, decodeAll_length _ _ _ hout⟩
    simp [mdataListKeysTransform, hpos, readArray_self, hout]
  · intro recs hpos hall
    obtain ⟨out, hout⟩ := decodeAll_total decodeValueView recs hall
    refine ⟨out, ?_, decodeAll_length _ _ _ hout⟩
    simp [mdataListValuesTransform, hpos, readArray_self, hout]
  · intro recs hpos
    constructor
    · simp [mdataListPermissionSetsTransform, hpos, readArray_self]
    · simp

/-- Witness for c4_array_transforms_length_discipline on singleton record
arrays; the entry record has content_len 0 with an invalid content pointer,
so its successful decode also exercises the no-dereference path. -/
theorem c4_witness :
    (0 < ([{ key := { val := some [1] },
             value := { content_len := 0, contentMem := none, entry_version := 7 } }] :
            List MDataEntryRec).length) ∧
    (∀ e ∈ ([{ key := { val := some [1] },
               value := { content_len := 0, contentMem := none, entry_version := 7 } }] :
              List MDataEntryRec), (decodeEntry e).isSome) ∧
    (∃ out, mdataListEntriesTransform
        (some [{ key := { val := some [1] },
                 value := { content_len := 0, contentMem := none, entry_version := 7 } }]) 1 =
        some out ∧ out.length = 1) ∧
    (∃ out, mdataListKeysTransform (some [{ val := some [2] }]) 1 = some out ∧
      out.length = 1) ∧
    (∃ out, mdataListValuesTransform
        (some [{ content_len := 1, contentMem := some [3], entry_version := 4 }]) 1 =
        some out ∧ out.length = 1) ∧
    (mdataListPermissionSetsTransform
        (some [{ user_h := 5,
                 perm_set := { Read := true, Insert := false, Update := false,
                               Delete := false, ManagePermissions := true } }]) 1 =
      some [{ signKey := 5,
              permSet := { Read := true, Insert := false, Update := false,
                           Delete := false, ManagePermissions := true } }]) :=
  ⟨by decide, by decide,
   c4_array_transforms_length_discipline.2.2.2.2.1 _ (by decide) (by decide),
   c4_array_transforms_length_discipline.2.2.2.2.2.1 _ (by decide) (by decide),
   c4_array_transforms_length_discipline.2.2.2.2.2.2.1 _ (by decide) (by decide),
   (c4_array_transforms_length_discipline.2.2.2.2.2.2.2 _ (by decide)).1⟩

/-- Claim C7 as stated is false: the decode of a key record in
mdata_list_keys is the ref.reinterpret view itself (engineOwned), not a
copy, and likewise for the value content in mdata_list_values and the key
bytes in mdata_list_entries, so those decoded objects retain references
into engine-managed memory after the decode returns. -/
theorem c7_counterexample :
    mdataListKeysTransform (some [{ val := some [7] }]) 1 =
      some [{ bytes := [7], engineOwned := true }] ∧
    mdataListValuesTransform
        (some [{ content_len := 1, contentMem := some [8], entry_version := 3 }]) 1 =
      some [{ buf := { bytes := [8], engineOwned := true }, version := 3 }] ∧
    mdataListEntriesTransform
        (some [{ key := { val := some [9] },
                 value := { content_len := 1, contentMem := some [6],
                            entry_version := 2 } }]) 1 =
      some [{ key := { bytes := [9], engineOwned := true },
              value := { buf := { bytes := [6], engineOwned := false },
                         version := 2 } }] :=
  ⟨by decide, by decide, by decide⟩

/-- A decoded entry always carries an engine-owned view as its key and a
caller-owned buffer as its value content. -/
theorem decodeEntry_provenance {e : MDataEntryRec} {b : EntryObj}
    (h : decodeEntry e = some b) :
    b.key.engineOwned = true ∧ b.value.buf.engineOwned = false := by
  obtain ⟨⟨kv⟩, ⟨cl, cm, ev⟩⟩ := e
  cases kv with
  | none => simp [decodeEntry] at h
  | some ks =>
      simp only [decodeEntry] at h
      split at h
      · simp only [Option.some.injEq] at h
        subst h; exact ⟨rfl, rfl⟩
      · split at h
        · exact Option.noConfusion h
        · simp only [Option.some.injEq] at h
          subst h; exact ⟨rfl, rfl⟩

/-- A decoded key of mdata_list_keys is always an engine-owned view. -/
theorem decodeKeyView_provenance {k : MDataKeyRec} {b : Buf}
    (h : decodeKeyView k = some b) : b.engineOwned = true := by
  unfold decodeKeyView at h
  cases hk : k.val with
  | none => rw [hk] at h; exact Option.noConfusion h
  | some bs =>
      rw [hk] at h
      simp only [Option.map_some', Option.some.injEq] at h
      subst h; rfl

/-- A decoded value of mdata_list_values always carries an engine-owned
view. -/
theorem decodeValueView_provenance {v : MDataValueRec} {o : ValueObj}
    (h : decodeValueView v = some o) : o.buf.engineOwned = true := by
  unfold decodeValueView at h
  cases hm : v.contentMem with
  | none => rw [hm] at h; exact Option.noConfusion h
  | some bs =>
      rw [hm] at h
      simp only [Option.map_some', Option.some.injEq] at h
      subst h; rfl

/-- Claim C7 amended: in the mdata_list_entries transform the value content
bytes are copied into caller-owned memory during the decode (a fresh empty
buffer when content_len is 0), but the key bytes there, the keys of
mdata_list_keys, and the value contents of mdata_list_values are returned
as ref.reinterpret views that retain references into engine-managed
memory. -/
theorem c7_amended_copy_only_entry_values :
    (∀ mem len out, mdataListEntriesTransform mem len = some out →
      ∀ e ∈ out, e.key.engineOwned = true ∧ e.value.buf.engineOwned = false) ∧
    (∀ mem len out, mdataListKeysTransform mem len = some out →
      ∀ b ∈ out, b.engineOwned = true) ∧
    (∀ mem len out, mdataListValuesTransform mem len = some out →
      ∀ v ∈ out, v.buf.engineOwned = true) := by
  refine ⟨?_, ?_, ?_⟩ <;> intro mem len out h x hx
  · unfold mdataListEntriesTransform at h
    split at h
    · cases hra : readArray mem len with
      | none => rw [hra] at h; exact Option.noConfusion h
      | some arr =>
          rw [hra] at h
          obtain ⟨a, ha⟩ := decodeAll_mem decodeEntry arr out h x hx
          exact decodeEntry_provenance ha
    · simp only [Option.some.injEq] at h
      subst h
      exact absurd hx (List.not_mem_nil x)
  · unfold mdataListKeysTransform at h
    split at h
    · cases hra : readArray mem len with
      | none => rw [hra] at h; exact Option.noConfusion h
      | some arr =>
          rw [hra] at h
          obtain ⟨a, ha⟩ := decodeAll_mem decodeKeyView arr out h x hx
          exact decodeKeyView_provenance ha
    · simp only [Option.some.injEq] at h
      subst h
      exact absurd hx (List.not_mem_nil x)
  · unfold mdataListValuesTransform at h
    split at h
    · cases hra : readArray mem len with
      | none => rw [hra] at h; exact Option.noConfusion h
      | some arr =>
          rw [hra] at h
          obtain ⟨a, ha⟩ := decodeAll_mem decodeValueView arr out h x hx
          exact decodeValueView_provenance ha
    · simp only [Option.some.injEq] at h
      subst h
      exact absurd hx (List.not_mem_nil x)

/-- Witness for c7_amended_copy_only_entry_values on a concrete singleton
entry decode. -/
theorem c7_amended_witness :
    (mdataListEntriesTransform
        (some [{ key := { val := some [9] },
                 value := { content_len := 1, contentMem := some [6],
                            entry_version := 2 } }]) 1 =
      some [{ key := { bytes := [9], engineOwned := true },
              value := { buf := { bytes := [6], engineOwned := false },
                         version := 2 } }]) ∧
    ({ key := { bytes := [9], engineOwned := true },
       value := { buf := { bytes := [6], engineOwned := false },
                  version := 2 } } : EntryObj).key.engineOwned = true ∧
    ({ key := { bytes := [9], engineOwned := true },
       value := { buf := { bytes := [6], engineOwned := false },
                  version := 2 } } : EntryObj).value.buf.engineOwned = false := by
  have h := c7_amended_copy_only_entry_values.1
    (some [{ key := { val := some [9] },
             value := { content_len := 1, contentMem := some [6],
                        entry_version := 2 } }]) 1
    [{ key := { bytes := [9], engineOwned := true },
       value := { buf := { bytes := [6], engineOwned := false }, version := 2 } }]
    (by decide)
    { key := { bytes := [9], engineOwned := true },
      value := { buf := { bytes := [6], engineOwned := false }, version := 2 } }
    (by decide)
  exact ⟨by decide, h.1, h.2⟩

/-- Claim C10.  For an entry record whose value has content_len 0 the
decoded value buffer is a fresh caller-owned empty buffer, the record's
content pointer is never dereferenced (the decode result is the same for
any content memory, valid or invalid), and the only information taken from
the record's value is its entry_version. -/
theorem c10_zero_length_value_never_dereferenced (k : MDataKeyRec)
    (mem1 mem2 : Option (List Nat)) (ver : Nat) :
    decodeEntry { key := k, value := { content_len := 0, contentMem := mem1,
                                       entry_version := ver } } =
      decodeEntry { key := k, value := { content_len := 0, contentMem := mem2,
                                         entry_version := ver } } ∧
    (∀ ks, k.val = some ks →
      decodeEntry { key := k, value := { content_len := 0, contentMem := mem1,
                                         entry_version := ver } } =
        some { key := { bytes := ks, engineOwned := true },
               value := { buf := { bytes := [], engineOwned := false },
                          version := ver } }) := by
  constructor
  · unfold decodeEntry
    cases k.val <;> simp
  · intro ks hks
    unfold decodeEntry
    rw [hks]
    simp

/-- Witness for c10_zero_length_value_never_dereferenced with a readable
two-byte key, an invalid content pointer on one side and a valid one on the
other. -/
theorem c10_witness :
    (({ val := some [1, 2] } : MDataKeyRec).val = some [1, 2]) ∧
    decodeEntry { key := { val := some [1, 2] },
                  value := { content_len := 0, contentMem := none,
                             entry_version := 5 } } =
      decodeEntry { key := { val := some [1, 2] },
                    value := { content_len := 0, contentMem := some [9, 9],
                               entry_version := 5 } } ∧
    decodeEntry { key := { val := some [1, 2] },
                  value := { content_len := 0, contentMem := none,
                             entry_version := 5 } } =
      some { key := { bytes := [1, 2], engineOwned := true },
             value := { buf := { bytes := [], engineOwned := false },
                        version := 5 } } :=
  ⟨rfl,
   (c10_zero_length_value_never_dereferenced { val := some [1, 2] } none (some [9, 9]) 5).1,
   (c10_zero_length_value_never_dereferenced { val := some [1, 2] } none (some [9, 9]) 5).2
     [1, 2] rfl⟩

end SafeMutable
